import Mathlib

set_option maxHeartbeats 1000000

/-! Shallow embedding of the warehouse order-picking report generator
(`src/cmd/main.go` and the program variants in `src/unnamed/`). Go maps are
modelled as association lists carrying an explicit enumeration order, or as
total functions returning the Go zero value on absent keys when only lookups
matter. Go `int`/`int64` are modelled as `Int`; none of the verified claims
involve integer overflow, and `strconv.ParseInt` clamping is modelled
explicitly where it occurs. -/

/-- Row of the racks query in `initRacks` (src/cmd/main.go lines 157-161):
`SELECT product_id, name, is_main FROM racks`. -/
structure RackRow where
  productID : Int
  name : String
  isMain : Bool
deriving DecidableEq, Repr

/-- Line item of an order in the cmd variant (src/cmd/main.go lines 67-76,
with the `Product` pointer flattened into its two fields). -/
structure PartOrderC where
  orderID : Int
  productID : Int
  productName : String
  quantity : Int
deriving DecidableEq, Repr

/-- Lookup in an association list, the Go map read `m[k]`. The insert
operations below keep at most one binding per key, and the first binding
wins on lookup. -/
def lookupA {κ α : Type} [DecidableEq κ] : List (κ × α) → κ → Option α
  | [], _ => none
  | (k', v) :: rest, k => if k' = k then some v else lookupA rest k

/-- Go `racks[k] = append(racks[k], v)` on a `map[κ][]α`: extend the binding
of `k` if present, otherwise add a new binding holding `[v]`. -/
def insertAppend {κ α : Type} [DecidableEq κ] : List (κ × List α) → κ → α → List (κ × List α)
  | [], k, v => [(k, [v])]
  | (k', l) :: rest, k, v =>
    if k' = k then (k', l ++ [v]) :: rest else (k', l) :: insertAppend rest k v

/-- Go map assignment `m[k] = v`. -/
def insertReplace {κ α : Type} [DecidableEq κ] : List (κ × α) → κ → α → List (κ × α)
  | [], k, v => [(k, v)]
  | (k', v') :: rest, k, v =>
    if k' = k then (k', v) :: rest else (k', v') :: insertReplace rest k v

/-- Bucket of a rack map: Go reads `racks[k]` from a `map[string][]PartOrder`,
whose zero value for an absent key is the empty slice. -/
def bucketOf {κ α : Type} [DecidableEq κ] (racks : List (κ × List α)) (k : κ) : List α :=
  (lookupA racks k).getD []

/-- Pointwise update of a total-function model of a Go map. -/
def mapUpdate {κ α : Type} [DecidableEq κ] (f : κ → α) (k : κ) (v : α) : κ → α :=
  fun x => if x = k then v else f x

/-- Row of the orders query in the cmd variant (src/cmd/main.go lines
117-122): `SELECT o.id, o.product_id, o.quantity, p.name`. -/
structure OrderRowC where
  orderID : Int
  productID : Int
  quantity : Int
  productName : String
deriving DecidableEq, Repr

/-- Loop of `getOrders` (src/cmd/main.go lines 116-149): builds the orders map
in row order. It also seeds `mainRacks[productID] = ""` for every product it
sees (line 141); since `""` is exactly the zero value a Go map read yields for
an absent key, the seeded map is the constant-`""` function used in
`initRacksRun` below. With the rows given, the only failure paths are
database errors, so the returned error component is nil. -/
def getOrdersC (rows : List OrderRowC) : List (Int × List PartOrderC) × Option String :=
  (rows.foldl (fun orders r =>
    insertAppend orders r.orderID ⟨r.orderID, r.productID, r.productName, r.quantity⟩) [], none)

/-- Loop body of `initRacks` (src/cmd/main.go lines 169-182): rows with
`is_main` overwrite `mainRacks[productID]`, the other rows append their name
to `secondaryRacks[productID]`. Both maps are modelled as total functions
returning the Go zero values `""` and `[]` on absent keys. -/
def initRacks : List RackRow → (Int → String) → (Int → List String) →
    (Int → String) × (Int → List String)
  | [], m, s => (m, s)
  | r :: rest, m, s =>
    if r.isMain then initRacks rest (mapUpdate m r.productID r.name) s
    else initRacks rest m (mapUpdate s r.productID (s r.productID ++ [r.name]))

/-- State of the two rack maps after `initRacks` runs inside `solve`
(src/cmd/main.go lines 86-97): `mainRacks` starts at the constant `""` seed
and `secondaryRacks` starts empty. -/
def initRacksRun (rows : List RackRow) : (Int → String) × (Int → List String) :=
  initRacks rows (fun _ => "") (fun _ => [])

/-- Name of the last `is_main` row for a product in the rack rows, `none` when
the product has no row marked main: the distinction between a main rack set by
`initRacks` and the untouched `""` seed. -/
def mainRackName : List RackRow → Int → Option String
  | [], _ => none
  | r :: rest, pid =>
    match mainRackName rest pid with
    | some nm => some nm
    | none => if r.isMain && r.productID == pid then some r.name else none

/-- All line items of the orders map in enumeration order: exactly the items
the nested loop of src/cmd/main.go lines 194-199 visits. -/
def allItems (orders : List (Int × List PartOrderC)) : List PartOrderC :=
  (orders.map Prod.snd).flatten

/-- `groupOrdersByRack` (src/cmd/main.go lines 191-202): bucket every line
item under `mainRacks[partOrder.Product.ID]` and return a nil error, modelled
as the `none` second component. -/
def groupOrdersByRack (mainRacks : Int → String) (orders : List (Int × List PartOrderC)) :
    List (String × List PartOrderC) × Option String :=
  (orders.foldl
    (fun racks ol => ol.2.foldl
      (fun racks p => insertAppend racks (mainRacks p.productID) p) racks)
    [], none)

/-- `getSortedRacksNames` (src/cmd/main.go lines 234-242): collect the keys of
the racks map and `sort.Strings` them. Equal strings are identical, so every
correct sort returns the same list; we use `List.insertionSort` on `≤`, and
byte-wise UTF-8 comparison agrees with the code-point order of `String.le`. -/
def getSortedRacksNames (racks : List (String × List PartOrderC)) : List String :=
  List.insertionSort (· ≤ ·) (racks.map Prod.fst)

/-- Comma-terminated concatenation loop over the secondary rack names
(src/cmd/main.go lines 222-225). -/
def joinLoop (names : List String) : String :=
  names.foldl (fun acc n => acc ++ n ++ ",") ""

/-- Go slice `s[:len(s)-1]` as used on src/cmd/main.go line 226. The dropped
byte is the trailing `','` appended by `joinLoop`, a one-byte character, so
dropping the last character models the byte slice exactly. -/
def chopLast (s : String) : String :=
  String.mk s.data.dropLast

/-- Secondary-rack fragment of one pick entry (src/cmd/main.go lines 220-227):
printed only when the product has at least one secondary rack. -/
def renderSecondary (names : List String) : String :=
  if 0 < names.length then "доп стеллаж: " ++ chopLast (joinLoop names) ++ "\n" else ""

/-- One pick entry of the report (src/cmd/main.go lines 213-230). -/
def renderEntry (secondary : Int → List String) (p : PartOrderC) : String :=
  p.productName ++ " (id=" ++ toString p.productID ++ ")\n" ++
    "заказ " ++ toString p.orderID ++ ", " ++ toString p.quantity ++ " шт\n" ++
    renderSecondary (secondary p.productID) ++ "\n"

/-- `printRacksAndOrders` (src/cmd/main.go lines 204-232) as the report string
written to standard output: a banner, then one section per rack name in
`getSortedRacksNames` order. -/
def printRacksAndOrders (secondary : Int → List String)
    (racks : List (String × List PartOrderC)) : String :=
  "=+=+=+=\n" ++ String.join ((getSortedRacksNames racks).map
    (fun nm => "===Стеллаж " ++ nm ++ "\n" ++
      String.join ((bucketOf racks nm).map (renderEntry secondary))))

/-- Go `strings.Split(s, ",")` on the character list of the argument
(src/cmd/main.go line 109): split at every comma, keeping empty tokens. -/
def splitComma : List Char → List (List Char)
  | [] => [[]]
  | c :: rest =>
    if c = ',' then [] :: splitComma rest
    else
      match splitComma rest with
      | t :: ts => (c :: t) :: ts
      | [] => [[c]]

/-- Sign handling of `strconv.ParseInt`: one optional leading `+` or `-`. -/
def signSplit (cs : List Char) : Bool × List Char :=
  match cs with
  | '+' :: rest => (false, rest)
  | '-' :: rest => (true, rest)
  | rest => (false, rest)

/-- Decimal value of a digit string, `none` unless the list is nonempty and
all digits: the syntax accepted by `strconv.ParseInt` for base 10. -/
def digitsToNat? (cs : List Char) : Option Nat :=
  if cs.isEmpty then none
  else if cs.all Char.isDigit then
    some (cs.foldl (fun a c => 10 * a + (c.toNat - 48)) 0)
  else none

/-- Model of `strconv.ParseInt(s, 10, 64)` keeping the value and discarding
the error, exactly as src/cmd/main.go line 110 does: a syntax error yields 0,
an out-of-range value is clamped to the int64 bounds. -/
def goParseInt (s : String) : Int :=
  match digitsToNat? (signSplit s.data).2 with
  | none => 0
  | some n =>
    let v : Int := if (signSplit s.data).1 then -(n : Int) else (n : Int)
    if v > 2 ^ 63 - 1 then 2 ^ 63 - 1
    else if v < -(2 ^ 63) then -(2 ^ 63) else v

/-- Token is a syntactically valid decimal integer, possibly signed. -/
def isValidInt (s : String) : Bool :=
  !(signSplit s.data).2.isEmpty && (signSplit s.data).2.all Char.isDigit

/-- Tokens of the comma-separated command-line argument. -/
def tokensOf (s : String) : List String :=
  (splitComma s.data).map String.mk

/-- `parseOrderIDs` (src/cmd/main.go lines 107-114): one parsed integer per
comma-separated token. -/
def parseOrderIDs (s : String) : List Int :=
  (tokensOf s).map goParseInt

/-- Row returned by `store.GetOrder` in the part_001 variant: the sqlc
`order_product` row as consumed in src/unnamed/part_001 lines 113-123. -/
structure OrderRowP1 where
  ProductID : Int
  Quantity : Int
deriving DecidableEq, Repr

/-- Row returned by `store.GetProduct` (src/unnamed/part_001 lines 136-141). -/
structure ProductRowP1 where
  ID : Int
  Name : String
deriving DecidableEq, Repr

/-- Row of the `racks` table as returned by `store.GetMainRack` and
`store.GetSecondaryRacks` (db/query/racks.sql). -/
structure RackP1 where
  ProductID : Int
  Name : String
  IsMain : Bool
deriving DecidableEq, Repr

/-- In-memory product of the part_001 variant (src/unnamed/part_001 lines
65-70). -/
structure ProductP1 where
  ID : Int
  Name : String
  Quantity : Int
  SecondaryRacks : List String
deriving DecidableEq, Repr

/-- Pick entry of the part_001 variant (src/unnamed/part_001 lines 72-75); the
`*Product` pointer is flattened to the product value it finally holds. -/
structure PartOrderP1 where
  ID : Int
  Product : ProductP1
deriving DecidableEq, Repr

/-- Narrow repository interface of the part_001 variant (`sqlc_db.Store`):
four read operations, each returning a value or a database error. -/
structure Store where
  GetOrder : Int → Except String (List OrderRowP1)
  GetProduct : Int → Except String ProductRowP1
  GetMainRack : Int → Except String RackP1
  GetSecondaryRacks : Int → Except String (List RackP1)

/-- Semantics of the sqlc query `GetMainRack` (db/query/racks.sql):
`SELECT * FROM racks WHERE product_id = $1 AND is_main = true LIMIT 1` as a
`:one` query, which surfaces `sql.ErrNoRows` when the product has no row
marked main. -/
def mainRackQuery (racksTable : List RackP1) (pid : Int) : Except String RackP1 :=
  match racksTable.find? (fun r => r.IsMain && r.ProductID == pid) with
  | some r => Except.ok r
  | none => Except.error "sql: no rows in result set"

/-- `getProductName` (src/unnamed/part_001 lines 132-144) with the global
`productsName` memo map threaded explicitly. -/
def getProductName (store : Store) (cache : List (Int × String)) (id : Int) :
    Except String (String × List (Int × String)) :=
  match lookupA cache id with
  | some nm => Except.ok (nm, cache)
  | none =>
    match store.GetProduct id with
    | Except.error e => Except.error ("failed to get product " ++ toString id ++ ": " ++ e)
    | Except.ok prod => Except.ok (prod.Name, insertReplace cache id prod.Name)

/-- Inner loop of `getOrders` (src/unnamed/part_001 lines 112-124): build the
product list of one order from its rows in row order, threading the memo. -/
def orderProducts (store : Store) (cache : List (Int × String)) :
    List OrderRowP1 → Except String (List ProductP1 × List (Int × String))
  | [] => Except.ok ([], cache)
  | row :: rest =>
    match getProductName store cache row.ProductID with
    | Except.error e => Except.error e
    | Except.ok (nm, cache₁) =>
      match orderProducts store cache₁ rest with
      | Except.error e => Except.error e
      | Except.ok (ps, cache₂) =>
        Except.ok (⟨row.ProductID, nm, row.Quantity, []⟩ :: ps, cache₂)

/-- Outer loop of `getOrders` (src/unnamed/part_001 lines 104-128): one
`GetOrder` call per requested ID; an order with zero rows contributes an
empty product list rather than an error. -/
def getOrdersLoop (store : Store) :
    List Int → List (Int × List ProductP1) → List (Int × String) →
    Except String (List (Int × List ProductP1))
  | [], orders, _ => Except.ok orders
  | oid :: rest, orders, cache =>
    match store.GetOrder oid with
    | Except.error e =>
      Except.error ("failed to get order with ID " ++ toString oid ++ ": " ++ e)
    | Except.ok rows =>
      match orderProducts store cache rows with
      | Except.error e => Except.error e
      | Except.ok (ps, cache₁) => getOrdersLoop store rest (insertReplace orders oid ps) cache₁

/-- `getOrders` of the part_001 variant, starting from the fresh per-run memo
map. -/
def getOrdersP1 (store : Store) (orderIDs : List Int) :
    Except String (List (Int × List ProductP1)) :=
  getOrdersLoop store orderIDs [] []

/-- Inner loop of `groupOrdersByRack` (src/unnamed/part_001 lines 150-169).
In the source the pick entry holding a pointer to the product is appended to
the bucket before the secondary racks are written through that pointer; the
bucket value ultimately observed is the product with its secondary racks
attached, which is what we insert. -/
def groupItems (store : Store) (oid : Int) (racks : List (String × List PartOrderP1)) :
    List ProductP1 → Except String (List (String × List PartOrderP1))
  | [] => Except.ok racks
  | product :: rest =>
    match store.GetMainRack product.ID with
    | Except.error e =>
      Except.error ("failed to get main rack for product " ++ toString product.ID ++ ": " ++ e)
    | Except.ok rack =>
      match store.GetSecondaryRacks product.ID with
      | Except.error e =>
        Except.error
          ("failed to get secondary racks for product " ++ toString product.ID ++ ": " ++ e)
      | Except.ok secs =>
        groupItems store oid
          (insertAppend racks rack.Name
            ⟨oid, { product with SecondaryRacks := product.SecondaryRacks ++ secs.map RackP1.Name }⟩)
          rest

/-- `groupOrdersByRack` of the part_001 variant (src/unnamed/part_001 lines
146-173): a store failure on any item aborts the whole aggregation. -/
def groupOrdersByRackP1 (store : Store) :
    List (Int × List ProductP1) → List (String × List PartOrderP1) →
    Except String (List (String × List PartOrderP1))
  | [], racks => Except.ok racks
  | (oid, products) :: rest, racks =>
    match groupItems store oid racks products with
    | Except.error e => Except.error e
    | Except.ok racks₁ => groupOrdersByRackP1 store rest racks₁

/-- One pick entry as printed by src/unnamed/part_001 lines 184-196: the same
line format as the cmd variant, with the secondary racks read off the
product. -/
def renderEntryP1 (po : PartOrderP1) : String :=
  po.Product.Name ++ " (id=" ++ toString po.Product.ID ++ ")\n" ++
    "заказ " ++ toString po.ID ++ ", " ++ toString po.Product.Quantity ++ " шт\n" ++
    renderSecondary po.Product.SecondaryRacks ++ "\n"

/-- `printRacksAndOrders` of the part_001 variant (src/unnamed/part_001 lines
175-199): the racks map is iterated directly with `range`, so sections appear
in whatever enumeration order the runtime chooses for the map; the argument
list order stands for that enumeration. The `orders` parameter of the source
function is unused by its body and omitted. -/
def printRacksAndOrdersP1 (racks : List (String × List PartOrderP1)) : String :=
  "=+=+=+=\n" ++ String.join (racks.map
    (fun kv => "===Стеллаж " ++ kv.1 ++ "\n" ++ String.join (kv.2.map renderEntryP1)))

/-- `solve` of the part_001 variant (src/unnamed/part_001 lines 77-93),
returning the report text on success. Each `logrus.Fatalf` terminates the
process before `printRacksAndOrders` runs, so an error value means nothing at
all is printed. -/
def solveP1 (store : Store) (arg : String) : Except String String :=
  match getOrdersP1 store (parseOrderIDs arg) with
  | Except.error e => Except.error e
  | Except.ok orders =>
    match groupOrdersByRackP1 store orders [] with
    | Except.error e => Except.error e
    | Except.ok racks => Except.ok (printRacksAndOrdersP1 racks)

/-! Helper lemmas about the association-list model of Go maps. -/

theorem bucketOf_insertAppend {κ α : Type} [DecidableEq κ]
    (racks : List (κ × List α)) (k : κ) (v : α) (k' : κ) :
    bucketOf (insertAppend racks k v) k' =
      if k' = k then bucketOf racks k' ++ [v] else bucketOf racks k' := by
  induction racks with
  | nil =>
    by_cases h : k' = k
    · simp [insertAppend, bucketOf, lookupA, h]
    · simp [insertAppend, bucketOf, lookupA, h, Ne.symm h]
  | cons kv rest ih =>
    obtain ⟨k₀, l₀⟩ := kv
    by_cases h₀ : k₀ = k
    · subst h₀
      by_cases h : k' = k₀
      · simp [insertAppend, bucketOf, lookupA, h]
      · simp [insertAppend, bucketOf, lookupA, h, Ne.symm h]
    · by_cases h₁ : k₀ = k'
      · subst h₁
        simp [insertAppend, bucketOf, lookupA, h₀, Ne.symm h₀]
      · by_cases h : k' = k <;>
          simpa [insertAppend, bucketOf, lookupA, h₀, h₁, h] using ih

theorem lookupA_insertReplace_self {κ α : Type} [DecidableEq κ]
    (l : List (κ × α)) (k : κ) (v : α) :
    lookupA (insertReplace l k v) k = some v := by
  induction l with
  | nil => simp [insertReplace, lookupA]
  | cons kv rest ih =>
    obtain ⟨k₀, v₀⟩ := kv
    by_cases h₀ : k₀ = k <;> simp [insertReplace, lookupA, h₀, ih]

theorem lookupA_insertReplace_ne {κ α : Type} [DecidableEq κ]
    (l : List (κ × α)) (k : κ) (v : α) (k' : κ) (h : k' ≠ k) :
    lookupA (insertReplace l k v) k' = lookupA l k' := by
  induction l with
  | nil => simp [insertReplace, lookupA, h, Ne.symm h]
  | cons kv rest ih =>
    obtain ⟨k₀, v₀⟩ := kv
    by_cases h₀ : k₀ = k
    · subst h₀
      simp [insertReplace, lookupA, Ne.symm h]
    · simp [insertReplace, lookupA, h₀, ih]

/-! Characterization of the grouping step of `groupOrdersByRack`
(cmd variant): the bucket of a key collects exactly the line items whose
main-rack name is that key, in traversal order. -/

theorem bucket_group_flat (m : Int → String) (items : List PartOrderC) :
    ∀ (racks : List (String × List PartOrderC)) (k : String),
      bucketOf (items.foldl (fun racks p => insertAppend racks (m p.productID) p) racks) k =
        bucketOf racks k ++ items.filter (fun p => m p.productID == k) := by
  induction items with
  | nil => intro racks k; simp
  | cons p rest ih =>
    intro racks k
    rw [List.foldl_cons, ih, bucketOf_insertAppend, List.filter_cons]
    by_cases h : k = m p.productID
    · simp [h, List.append_assoc]
    · have h' : ¬(m p.productID = k) := fun hh => h hh.symm
      simp [h, h']

theorem group_nested_eq_flat (m : Int → String) (orders : List (Int × List PartOrderC)) :
    ∀ racks : List (String × List PartOrderC),
      orders.foldl
          (fun racks ol => ol.2.foldl (fun racks p => insertAppend racks (m p.productID) p) racks)
          racks =
        (allItems orders).foldl (fun racks p => insertAppend racks (m p.productID) p) racks := by
  induction orders with
  | nil => intro racks; simp [allItems]
  | cons ol rest ih =>
    intro racks
    rw [List.foldl_cons, ih]
    simp [allItems, List.foldl_append]

theorem bucket_groupOrdersByRack (m : Int → String) (orders : List (Int × List PartOrderC))
    (k : String) :
    bucketOf (groupOrdersByRack m orders).1 k =
      (allItems orders).filter (fun p => m p.productID == k) := by
  have h := group_nested_eq_flat m orders []
  have hb := bucket_group_flat m (allItems orders) [] k
  simp only [groupOrdersByRack]
  rw [h, hb]
  simp [bucketOf, lookupA]

/-! Characterization of `initRacks`: the main-rack map holds the last
`is_main` row's name (or the seed), and the secondary map holds the non-main
rows' names in row order. -/

theorem initRacks_main (rows : List RackRow) :
    ∀ (m : Int → String) (s : Int → List String) (pid : Int),
      (initRacks rows m s).1 pid = (mainRackName rows pid).getD (m pid) := by
  induction rows with
  | nil => intro m s pid; simp [initRacks, mainRackName]
  | cons r rest ih =>
    intro m s pid
    by_cases hmain : r.isMain
    · rw [show initRacks (r :: rest) m s =
          initRacks rest (mapUpdate m r.productID r.name) s by simp [initRacks, hmain]]
      rw [ih]
      cases hrec : mainRackName rest pid with
      | some nm => simp [mainRackName, hrec]
      | none =>
        by_cases hpid : r.productID = pid
        · subst hpid
          simp [mainRackName, hrec, hmain, mapUpdate]
        · have h₁ : pid ≠ r.productID := fun hh => hpid hh.symm
          simp [mainRackName, hrec, hmain, hpid, mapUpdate, h₁]
    · rw [show initRacks (r :: rest) m s =
          initRacks rest m (mapUpdate s r.productID (s r.productID ++ [r.name])) by
            simp [initRacks, hmain]]
      rw [ih]
      cases hrec : mainRackName rest pid with
      | some nm => simp [mainRackName, hrec]
      | none => simp [mainRackName, hrec, hmain]

theorem initRacks_secondary (rows : List RackRow) :
    ∀ (m : Int → String) (s : Int → List String) (pid : Int),
      (initRacks rows m s).2 pid =
        s pid ++ (rows.filter (fun r => !r.isMain && r.productID == pid)).map RackRow.name := by
  induction rows with
  | nil => intro m s pid; simp [initRacks]
  | cons r rest ih =>
    intro m s pid
    by_cases hmain : r.isMain
    · rw [show initRacks (r :: rest) m s =
          initRacks rest (mapUpdate m r.productID r.name) s by simp [initRacks, hmain]]
      rw [ih]
      simp [List.filter_cons, hmain]
    · rw [show initRacks (r :: rest) m s =
          initRacks rest m (mapUpdate s r.productID (s r.productID ++ [r.name])) by
            simp [initRacks, hmain]]
      rw [ih]
      by_cases hpid : r.productID = pid
      · subst hpid
        simp [List.filter_cons, hmain, mapUpdate, List.append_assoc]
      · have h₁ : pid ≠ r.productID := fun hh => hpid hh.symm
        simp [List.filter_cons, hmain, hpid, mapUpdate, h₁]

theorem mainRackName_eq_none (rows : List RackRow) (pid : Int)
    (h : ∀ r ∈ rows, r.isMain = true → r.productID ≠ pid) :
    mainRackName rows pid = none := by
  induction rows with
  | nil => simp [mainRackName]
  | cons r rest ih =>
    have hrest : mainRackName rest pid = none :=
      ih fun q hq => h q (List.mem_cons_of_mem _ hq)
    by_cases hmain : r.isMain
    · have : r.productID ≠ pid := h r (List.mem_cons_self _ _) hmain
      simp [mainRackName, hrest, hmain, this]
    · simp [mainRackName, hrest, hmain]

/-! String lemmas for the comma-join loop shared by both print variants. -/

theorem data_empty_str : ("" : String).data = [] := rfl

theorem data_comma_str : ("," : String).data = [','] := rfl

theorem joinLoop_from (names : List String) :
    ∀ acc : String, names.foldl (fun a n => a ++ n ++ ",") acc = acc ++ joinLoop names := by
  induction names with
  | nil =>
    intro acc
    apply String.ext
    simp [joinLoop, data_empty_str]
  | cons n rest ih =>
    intro acc
    rw [List.foldl_cons, ih]
    have hn : joinLoop (n :: rest) = ("" ++ n ++ ",") ++ joinLoop rest := by
      rw [joinLoop, List.foldl_cons, ih]
    rw [hn]
    apply String.ext
    simp [data_empty_str, List.append_assoc]

theorem joinLoop_cons (n : String) (rest : List String) :
    joinLoop (n :: rest) = n ++ "," ++ joinLoop rest := by
  rw [joinLoop, List.foldl_cons, joinLoop_from]
  apply String.ext
  simp [data_empty_str]

theorem intercalate_go_append (s : String) (as : List String) :
    ∀ acc₁ acc₂ : String,
      String.intercalate.go (acc₁ ++ acc₂) s as = acc₁ ++ String.intercalate.go acc₂ s as := by
  induction as with
  | nil => intro acc₁ acc₂; simp [String.intercalate.go]
  | cons a as ih =>
    intro acc₁ acc₂
    have h₁ : acc₁ ++ acc₂ ++ s ++ a = acc₁ ++ (acc₂ ++ s ++ a) := by
      apply String.ext
      simp [List.append_assoc]
    simp only [String.intercalate.go]
    rw [h₁, ih]

theorem intercalate_cons_cons (s a b : String) (l : List String) :
    String.intercalate s (a :: b :: l) = a ++ s ++ String.intercalate s (b :: l) := by
  show String.intercalate.go a s (b :: l) = a ++ s ++ String.intercalate.go b s l
  simp only [String.intercalate.go]
  exact intercalate_go_append s l (a ++ s) b

theorem joinLoop_eq_intercalate (names : List String) (h : names ≠ []) :
    joinLoop names = String.intercalate "," names ++ "," := by
  induction names with
  | nil => exact absurd rfl h
  | cons n rest ih =>
    cases rest with
    | nil =>
      rw [joinLoop_cons]
      show n ++ "," ++ joinLoop [] = String.intercalate.go n "," [] ++ ","
      apply String.ext
      simp [joinLoop, String.intercalate.go, data_empty_str]
    | cons b l =>
      rw [joinLoop_cons, ih (by simp), intercalate_cons_cons]
      apply String.ext
      simp [List.append_assoc]

theorem chopLast_append_comma (s : String) : chopLast (s ++ ",") = s := by
  apply String.ext
  simp [chopLast, data_comma_str]

theorem joinLoop_length (names : List String) (h : names ≠ []) :
    1 ≤ (joinLoop names).length ∧ (joinLoop names).data.getLast? = some ',' := by
  rw [joinLoop_eq_intercalate names h]
  constructor
  · rw [String.length_append]
    have h₁ : ("," : String).length = 1 := rfl
    omega
  · simp [data_comma_str]

/-- Rendered secondary-rack fragment, characterized: empty when the product
has no secondary racks, otherwise the comma-joined names. -/
theorem renderSecondary_eq (names : List String) :
    renderSecondary names =
      if names = [] then "" else "доп стеллаж: " ++ String.intercalate "," names ++ "\n" := by
  cases names with
  | nil => simp [renderSecondary]
  | cons n rest =>
    rw [renderSecondary, joinLoop_eq_intercalate (n :: rest) (by simp), chopLast_append_comma]
    simp

/-! Lemmas about the part_001 aggregation: success of grouping implies every
main-rack lookup succeeded, and order resolution treats zero-row orders as
empty lists. -/

theorem groupItems_ok_main_ok (store : Store) (oid : Int) :
    ∀ (products : List ProductP1) (racks out : List (String × List PartOrderP1)),
      groupItems store oid racks products = Except.ok out →
      ∀ p ∈ products, ∃ rk, store.GetMainRack p.ID = Except.ok rk := by
  intro products
  induction products with
  | nil => intro racks out _ p hp; cases hp
  | cons q rest ih =>
    intro racks out h p hp
    cases hmr : store.GetMainRack q.ID with
    | error e => simp [groupItems, hmr] at h
    | ok rack =>
      cases hsr : store.GetSecondaryRacks q.ID with
      | error e => simp [groupItems, hmr, hsr] at h
      | ok secs =>
        rcases List.mem_cons.mp hp with he | hr
        · exact he ▸ ⟨rack, hmr⟩
        · exact ih _ out (by simpa [groupItems, hmr, hsr] using h) p hr

theorem groupP1_ok_main_ok (store : Store) :
    ∀ (orders : List (Int × List ProductP1)) (racks out : List (String × List PartOrderP1)),
      groupOrdersByRackP1 store orders racks = Except.ok out →
      ∀ ol ∈ orders, ∀ p ∈ ol.2, ∃ rk, store.GetMainRack p.ID = Except.ok rk := by
  intro orders
  induction orders with
  | nil => intro racks out _ ol hol; cases hol
  | cons ol₀ rest ih =>
    intro racks out h ol hol
    obtain ⟨oid, products⟩ := ol₀
    cases hg : groupItems store oid racks products with
    | error e => simp [groupOrdersByRackP1, hg] at h
    | ok racks₁ =>
      rcases List.mem_cons.mp hol with he | hr
      · subst he
        intro p hp
        exact groupItems_ok_main_ok store oid products racks racks₁ hg p hp
      · exact ih racks₁ out (by simpa [groupOrdersByRackP1, hg] using h) ol hr

theorem orderProducts_ok (store : Store)
    (h2 : ∀ pid : Int, ∃ pr, store.GetProduct pid = Except.ok pr) :
    ∀ (rows : List OrderRowP1) (cache : List (Int × String)),
      ∃ ps cache₁, orderProducts store cache rows = Except.ok (ps, cache₁) ∧
        (rows = [] → ps = []) := by
  intro rows
  induction rows with
  | nil => intro cache; exact ⟨[], cache, rfl, fun _ => rfl⟩
  | cons row rest ih =>
    intro cache
    have hname : ∃ nm cache₁,
        getProductName store cache row.ProductID = Except.ok (nm, cache₁) := by
      cases hc : lookupA cache row.ProductID with
      | some nm => exact ⟨nm, cache, by simp [getProductName, hc]⟩
      | none =>
        obtain ⟨pr, hpr⟩ := h2 row.ProductID
        exact ⟨pr.Name, insertReplace cache row.ProductID pr.Name,
          by simp [getProductName, hc, hpr]⟩
    obtain ⟨nm, cache₁, hname⟩ := hname
    obtain ⟨ps, cache₂, hrest, _⟩ := ih cache₁
    refine ⟨⟨row.ProductID, nm, row.Quantity, []⟩ :: ps, cache₂, ?_, ?_⟩
    · simp [orderProducts, hname, hrest]
    · intro h; cases h

theorem getOrdersLoop_ok (store : Store)
    (h2 : ∀ pid : Int, ∃ pr, store.GetProduct pid = Except.ok pr) :
    ∀ (ids : List Int) (orders : List (Int × List ProductP1)) (cache : List (Int × String)),
      (∀ i ∈ ids, ∃ rows, store.GetOrder i = Except.ok rows) →
      ∃ m, getOrdersLoop store ids orders cache = Except.ok m ∧
        ∀ oid : Int, store.GetOrder oid = Except.ok [] →
          (oid ∈ ids ∨ lookupA orders oid = some []) → lookupA m oid = some [] := by
  intro ids
  induction ids with
  | nil =>
    intro orders cache _
    refine ⟨orders, rfl, ?_⟩
    intro oid _ hmem
    rcases hmem with h | h
    · cases h
    · exact h
  | cons id₀ rest ih =>
    intro orders cache h1
    obtain ⟨rows, hrows⟩ := h1 id₀ (List.mem_cons_self _ _)
    obtain ⟨ps, cache₁, hps, hempty⟩ := orderProducts_ok store h2 rows cache
    have hstep : getOrdersLoop store (id₀ :: rest) orders cache =
        getOrdersLoop store rest (insertReplace orders id₀ ps) cache₁ := by
      simp [getOrdersLoop, hrows, hps]
    obtain ⟨m, hm, hprop⟩ := ih (insertReplace orders id₀ ps) cache₁
      (fun i hi => h1 i (List.mem_cons_of_mem _ hi))
    refine ⟨m, by rw [hstep]; exact hm, ?_⟩
    intro oid hoe hmem
    by_cases heq : oid = id₀
    · subst heq
      have hrow0 : rows = [] := by
        rw [hoe] at hrows
        simpa using hrows.symm
      have hps0 : ps = [] := hempty hrow0
      apply hprop oid hoe
      right
      rw [hps0]
      exact lookupA_insertReplace_self orders oid []
    · rcases hmem with hmem | hmem
      · rcases List.mem_cons.mp hmem with he | hr
        · exact absurd he heq
        · exact hprop oid hoe (Or.inl hr)
      · apply hprop oid hoe
        right
        rw [lookupA_insertReplace_ne orders id₀ ps oid heq]
        exact hmem

/-! Count helper for bucket membership. -/

theorem count_filter_eq {α : Type} [DecidableEq α] (a : α) (f : α → Bool) (l : List α) :
    List.count a (l.filter f) = if f a then List.count a l else 0 := by
  by_cases h : f a
  · rw [if_pos h, List.count_filter h]
  · rw [if_neg h, List.count_eq_zero]
    intro hmem
    exact h (List.mem_filter.mp hmem).2

/-- C1: for a collection of orders whose line items all have a known main-rack
mapping, `groupOrdersByRack` places every line item in exactly one rack
bucket, namely the bucket keyed by the name of the item's main rack: the
item's multiplicity in that bucket equals its multiplicity among all line
items (which is positive), and its multiplicity in every other bucket is
zero. -/
theorem groupOrdersByRack_unique_bucket (rows : List RackRow)
    (orders : List (Int × List PartOrderC)) (p : PartOrderC) (nm : String)
    (hall : ∀ q ∈ allItems orders, (mainRackName rows q.productID).isSome)
    (hp : p ∈ allItems orders)
    (hm : mainRackName rows p.productID = some nm) :
    List.count p (bucketOf (groupOrdersByRack (initRacksRun rows).1 orders).1 nm) =
        List.count p (allItems orders) ∧
      0 < List.count p (allItems orders) ∧
      ∀ k : String, k ≠ nm →
        List.count p (bucketOf (groupOrdersByRack (initRacksRun rows).1 orders).1 k) = 0 := by
  have hmain : (initRacksRun rows).1 p.productID = nm := by
    rw [initRacksRun, initRacks_main, hm]
    rfl
  refine ⟨?_, List.count_pos_iff.mpr hp, ?_⟩
  · rw [bucket_groupOrdersByRack, count_filter_eq]
    simp [hmain]
  · intro k hk
    rw [bucket_groupOrdersByRack, count_filter_eq]
    have hbeq : ((initRacksRun rows).1 p.productID == k) = false := by
      rw [hmain]
      exact beq_eq_false_iff_ne.mpr (Ne.symm hk)
    simp [hbeq]

theorem groupOrdersByRack_unique_bucket_witness :
    List.count (⟨1, 10, "молоко", 3⟩ : PartOrderC)
        (bucketOf (groupOrdersByRack (initRacksRun [⟨10, "A", true⟩]).1
          [(1, [⟨1, 10, "молоко", 3⟩])]).1 "A") =
        List.count (⟨1, 10, "молоко", 3⟩ : PartOrderC)
          (allItems [(1, [⟨1, 10, "молоко", 3⟩])]) ∧
      0 < List.count (⟨1, 10, "молоко", 3⟩ : PartOrderC)
          (allItems [(1, [⟨1, 10, "молоко", 3⟩])]) ∧
      ∀ k : String, k ≠ "A" →
        List.count (⟨1, 10, "молоко", 3⟩ : PartOrderC)
          (bucketOf (groupOrdersByRack (initRacksRun [⟨10, "A", true⟩]).1
            [(1, [⟨1, 10, "молоко", 3⟩])]).1 k) = 0 :=
  groupOrdersByRack_unique_bucket [⟨10, "A", true⟩] [(1, [⟨1, 10, "молоко", 3⟩])]
    ⟨1, 10, "молоко", 3⟩ "A" (by decide) (by decide) (by decide)

/-- C6: a line item whose product has no row marked main is grouped under the
empty string, the zero value left in `mainRacks` by the seed of `getOrders`:
the item is bucketed under the key `""` with its full multiplicity rather
than dropped. -/
theorem missing_main_rack_buckets_under_empty (rows : List RackRow)
    (orders : List (Int × List PartOrderC)) (p : PartOrderC)
    (hp : p ∈ allItems orders)
    (hnone : ∀ r ∈ rows, r.isMain = true → r.productID ≠ p.productID) :
    (initRacksRun rows).1 p.productID = "" ∧
      List.count p (bucketOf (groupOrdersByRack (initRacksRun rows).1 orders).1 "") =
        List.count p (allItems orders) ∧
      0 < List.count p (allItems orders) := by
  have h0 : mainRackName rows p.productID = none :=
    mainRackName_eq_none rows p.productID hnone
  have hmain : (initRacksRun rows).1 p.productID = "" := by
    rw [initRacksRun, initRacks_main, h0]
    rfl
  refine ⟨hmain, ?_, List.count_pos_iff.mpr hp⟩
  rw [bucket_groupOrdersByRack, count_filter_eq]
  simp [hmain]

theorem missing_main_rack_buckets_under_empty_witness :
    (initRacksRun [⟨10, "B", false⟩]).1 10 = "" ∧
      List.count (⟨1, 10, "сок", 2⟩ : PartOrderC)
        (bucketOf (groupOrdersByRack (initRacksRun [⟨10, "B", false⟩]).1
          [(1, [⟨1, 10, "сок", 2⟩])]).1 "") =
        List.count (⟨1, 10, "сок", 2⟩ : PartOrderC)
          (allItems [(1, [⟨1, 10, "сок", 2⟩])]) ∧
      0 < List.count (⟨1, 10, "сок", 2⟩ : PartOrderC)
          (allItems [(1, [⟨1, 10, "сок", 2⟩])]) :=
  missing_main_rack_buckets_under_empty [⟨10, "B", false⟩] [(1, [⟨1, 10, "сок", 2⟩])]
    ⟨1, 10, "сок", 2⟩ (by decide) (by decide)

/-- C10: the batch-loading `groupOrdersByRack` always returns a nil error (the
`none` component): despite its error-returning signature, the grouping step
cannot fail once the orders and rack maps are loaded. -/
theorem groupOrdersByRack_error_always_nil (mainRacks : Int → String)
    (orders : List (Int × List PartOrderC)) :
    (groupOrdersByRack mainRacks orders).2 = none := rfl

/-- C4: the rack-name sequence `printRacksAndOrders` iterates is sorted
ascending (lexicographic, case-sensitive) for every racks map, and it is the
same list for any two enumerations of the same key multiset, i.e. independent
of the order in which racks were encountered. -/
theorem rack_headers_sorted (racks racks' : List (String × List PartOrderC))
    (hperm : (racks.map Prod.fst).Perm (racks'.map Prod.fst)) :
    List.Sorted (· ≤ ·) (getSortedRacksNames racks) ∧
      getSortedRacksNames racks = getSortedRacksNames racks' := by
  constructor
  · exact List.sorted_insertionSort _ _
  · have hp1 : (List.insertionSort (· ≤ ·) (racks.map Prod.fst)).Perm
        (List.insertionSort (· ≤ ·) (racks'.map Prod.fst)) :=
      ((List.perm_insertionSort _ _).trans hperm).trans (List.perm_insertionSort _ _).symm
    exact List.eq_of_perm_of_sorted hp1 (List.sorted_insertionSort _ _)
      (List.sorted_insertionSort _ _)

theorem rack_headers_sorted_witness :
    List.Sorted (· ≤ ·) (getSortedRacksNames [("B", ([] : List PartOrderC)), ("A", [])]) ∧
      getSortedRacksNames [("B", ([] : List PartOrderC)), ("A", [])] =
        getSortedRacksNames [("A", ([] : List PartOrderC)), ("B", [])] :=
  rack_headers_sorted [("B", []), ("A", [])] [("A", []), ("B", [])] (by decide)

/-- C5: for every product, the secondary-rack list built by `initRacks` is
exactly the names of the product's non-main rows in repository order, and the
rendered entry fragment lists exactly those names (comma-joined, in that
order) when there is at least one, and is absent (empty) when there are
none. -/
theorem secondary_racks_complete (rows : List RackRow) (pid : Int) :
    (initRacksRun rows).2 pid =
        (rows.filter (fun r => !r.isMain && r.productID == pid)).map RackRow.name ∧
      renderSecondary ((initRacksRun rows).2 pid) =
        if (initRacksRun rows).2 pid = [] then ""
        else "доп стеллаж: " ++ String.intercalate "," ((initRacksRun rows).2 pid) ++ "\n" := by
  constructor
  · rw [initRacksRun, initRacks_secondary]
    simp
  · exact renderSecondary_eq _

/-- C9: whenever the secondary-rack list is nonempty, the comma-join loop
produces a string of length at least one whose last character is the
trailing comma, so the Go slice `s[:len(s)-1]` in `printRacksAndOrders` is
always in bounds. -/
theorem secondary_join_chop_in_bounds (names : List String) (h : names ≠ []) :
    1 ≤ (joinLoop names).length ∧ (joinLoop names).data.getLast? = some ',' :=
  joinLoop_length names h

theorem secondary_join_chop_in_bounds_witness :
    1 ≤ (joinLoop ["C"]).length ∧ (joinLoop ["C"]).data.getLast? = some ',' :=
  secondary_join_chop_in_bounds ["C"] (by decide)

/-- C2: in the part_001 variant, when some product among the resolved orders
has no rack marked main, `GetMainRack` fails for it and `solve` ends in an
error before `printRacksAndOrders` runs: no rack section (indeed no output at
all) is rendered. -/
theorem no_main_rack_aborts_report (racksTable : List RackP1) (store : Store)
    (arg : String) (orders : List (Int × List ProductP1)) (oid : Int)
    (l : List ProductP1) (p : ProductP1)
    (hstore : store.GetMainRack = mainRackQuery racksTable)
    (hnomain : ∀ r ∈ racksTable, r.IsMain = true → r.ProductID ≠ p.ID)
    (hord : getOrdersP1 store (parseOrderIDs arg) = Except.ok orders)
    (hmem : (oid, l) ∈ orders) (hp : p ∈ l) :
    ∃ msg, solveP1 store arg = Except.error msg := by
  have hfind : racksTable.find? (fun r => r.IsMain && r.ProductID == p.ID) = none := by
    rw [List.find?_eq_none]
    intro r hr
    simp only [Bool.and_eq_true, beq_iff_eq, not_and]
    intro h1 h2
    exact hnomain r hr h1 h2
  have herr : store.GetMainRack p.ID = Except.error "sql: no rows in result set" := by
    rw [hstore]
    simp [mainRackQuery, hfind]
  cases hg : groupOrdersByRackP1 store orders [] with
  | error e => exact ⟨e, by simp [solveP1, hord, hg]⟩
  | ok racks =>
    obtain ⟨rk, hok⟩ := groupP1_ok_main_ok store orders [] racks hg (oid, l) hmem p hp
    rw [herr] at hok
    simp at hok

theorem no_main_rack_aborts_report_witness :
    ∃ msg,
      solveP1
        ⟨fun _ => Except.ok [⟨10, 3⟩], fun i => Except.ok ⟨i, "товар"⟩,
          fun i => mainRackQuery [⟨10, "A", false⟩] i, fun _ => Except.ok []⟩
        "1" = Except.error msg :=
  no_main_rack_aborts_report [⟨10, "A", false⟩]
    ⟨fun _ => Except.ok [⟨10, 3⟩], fun i => Except.ok ⟨i, "товар"⟩,
      fun i => mainRackQuery [⟨10, "A", false⟩] i, fun _ => Except.ok []⟩
    "1" [(1, [⟨10, "товар", 3, []⟩])] 1 [⟨10, "товар", 3, []⟩] ⟨10, "товар", 3, []⟩
    rfl (by decide) (by rfl) (by decide) (by decide)

/-- C7: in the part_001 variant, a requested order ID for which the
repository returns zero line-item rows resolves without error and contributes
an empty product list: given that every `GetOrder` call succeeds and products
resolve, `getOrders` succeeds and maps such an order ID to the empty list. -/
theorem missing_order_resolves_empty (store : Store) (ids : List Int) (oid : Int)
    (h1 : ∀ i ∈ ids, ∃ rows, store.GetOrder i = Except.ok rows)
    (h2 : ∀ pid : Int, ∃ pr, store.GetProduct pid = Except.ok pr)
    (hmem : oid ∈ ids) (hempty : store.GetOrder oid = Except.ok []) :
    ∃ m, getOrdersP1 store ids = Except.ok m ∧ lookupA m oid = some [] := by
  obtain ⟨m, hm, hprop⟩ := getOrdersLoop_ok store h2 ids [] [] h1
  exact ⟨m, hm, hprop oid hempty (Or.inl hmem)⟩

theorem missing_order_resolves_empty_witness :
    ∃ m,
      getOrdersP1
        ⟨fun _ => Except.ok [], fun i => Except.ok ⟨i, "x"⟩,
          fun _ => Except.error "e", fun _ => Except.ok []⟩
        [5] = Except.ok m ∧ lookupA m 5 = some [] :=
  missing_order_resolves_empty
    ⟨fun _ => Except.ok [], fun i => Except.ok ⟨i, "x"⟩,
      fun _ => Except.error "e", fun _ => Except.ok []⟩
    [5] 5 (fun i _ => ⟨[], rfl⟩) (fun pid => ⟨⟨pid, "x"⟩, rfl⟩) (by decide) rfl

/-- C8: `parseOrderIDs` returns exactly one integer per comma-separated token
of its argument, and every token that is not a syntactically valid integer is
silently parsed to 0. -/
theorem parseOrderIDs_invalid_tokens_zero (s : String) :
    parseOrderIDs s = (tokensOf s).map goParseInt ∧
      (parseOrderIDs s).length = (tokensOf s).length ∧
      ∀ t ∈ tokensOf s, isValidInt t = false → goParseInt t = 0 := by
  refine ⟨rfl, by simp [parseOrderIDs], ?_⟩
  intro t _ hval
  have hnone : digitsToNat? (signSplit t.data).2 = none := by
    rw [isValidInt] at hval
    cases h1 : (signSplit t.data).2.isEmpty with
    | true => simp [digitsToNat?, h1]
    | false =>
      rw [h1] at hval
      simp at hval
      simp [digitsToNat?, h1, hval]
  simp [goParseInt, hnone]

theorem parseOrderIDs_invalid_tokens_zero_witness :
    goParseInt "abc" = 0 ∧ parseOrderIDs "abc,17,-5," = [0, 17, -5, 0] :=
  ⟨(parseOrderIDs_invalid_tokens_zero "abc,17,-5,").2.2 "abc" (by decide) (by decide),
    by decide⟩

/-- C3: the part_001 report is not a function of the repository snapshot
alone: `printRacksAndOrders` walks the racks map in the runtime's map
enumeration order, and two enumerations of the same map (a permutation of
the same key/bucket bindings) yield different bytes, so two runs need not
produce byte-identical output. -/
theorem report_depends_on_map_enumeration :
    ([("A", [⟨1, ⟨10, "молоко", 3, []⟩⟩]), ("B", [⟨2, ⟨20, "хлеб", 1, []⟩⟩])] :
        List (String × List PartOrderP1)).Perm
        [("B", [⟨2, ⟨20, "хлеб", 1, []⟩⟩]), ("A", [⟨1, ⟨10, "молоко", 3, []⟩⟩])] ∧
      printRacksAndOrdersP1
          [("A", [⟨1, ⟨10, "молоко", 3, []⟩⟩]), ("B", [⟨2, ⟨20, "хлеб", 1, []⟩⟩])] ≠
        printRacksAndOrdersP1
          [("B", [⟨2, ⟨20, "хлеб", 1, []⟩⟩]), ("A", [⟨1, ⟨10, "молоко", 3, []⟩⟩])] := by
  constructor
  · decide
  · decide
